import Mathlib

/-!
Verification development for the library catalog service: a shallow
embedding of the transactional outbox core (Transactor, outbox kinds,
use cases, handlers, repository row mapping) together with theorems
about the embedded code.
-/

/-- Status codes of the RPC layer (google.golang.org/grpc/codes subset used
by the code: convertErr and the controller). -/
inductive StatusCode where
  | notFound
  | invalidArgument
  | internal
deriving DecidableEq, Repr

/-- Model of Go error values as used in this repository: the named sentinel
errors of package entity and repository, postgres driver errors carrying a
code (pgconn.PgError), plain errors.New strings, grpc status errors, and
fmt.Errorf wrapping with the w verb. -/
inductive GoError where
  | errAuthorNotFound
  | errBookNotFound
  | errTxNotFound
  | pgError (code : String) (msg : String)
  | str (msg : String)
  | statusErr (code : StatusCode) (msg : String)
  | wrap (msg : String) (inner : GoError)
deriving DecidableEq, Repr

/-- Error message of a Go error, as returned by the Error method; a
fmt.Errorf wrap with the w verb concatenates its prefix and the inner
message. -/
def GoError.message : GoError → String
  | .errAuthorNotFound => "author not found"
  | .errBookNotFound => "book not found"
  | .errTxNotFound => "transaction is not found in context"
  | .pgError _ msg => msg
  | .str msg => msg
  | .statusErr _ msg => msg
  | .wrap msg inner => msg ++ ": " ++ inner.message

/-- Embedding of errors.Is: an error matches a target if it is the target or
wraps it (fmt.Errorf with the w verb exposes the inner error to Is). -/
def errorsIs : GoError → GoError → Bool
  | e@(.wrap _ inner), target => e == target || errorsIs inner target
  | e, target => e == target

/-- Embedding of errors.As specialised to pgconn.PgError with a given code:
walks the wrap chain looking for a postgres error whose code matches. -/
def errAsPgCode : GoError → String → Bool
  | .pgError c _, code => c == code
  | .wrap _ inner, code => errAsPgCode inner code
  | _, _ => false

/-- Outcomes of the external pgx calls a single WithTx invocation can make:
pool.Begin, tx.Commit and tx.Rollback. none means the call succeeds. -/
structure TxOracle where
  beginErr : Option GoError
  commitErr : Option GoError
  rollbackErr : Option GoError
deriving DecidableEq, Repr

/-- Transaction-boundary operations a WithTx invocation performs on the
pgx transaction, in order of occurrence. -/
inductive TxAction where
  | beginTx
  | commit
  | rollback
deriving DecidableEq, Repr

/-- Embedding of injectTx: if the context already carries a transaction
(extractTx succeeds) it is reused and the context is returned unchanged;
otherwise pool.Begin is called and the new transaction is bound into the
context. Returns the inTx flag of the derived context together with the
boundary actions performed. -/
def injectTx (o : TxOracle) (inTx : Bool) : Except GoError (Bool × List TxAction) :=
  if inTx then
    .ok (true, [])
  else
    match o.beginErr with
    | some e => .error e
    | none => .ok (true, [TxAction.beginTx])

/-- Embedding of transactorImpl.WithTx. The context is abstracted to the
inTx flag (whether txInjector carries a transaction); the body receives the
derived context flag and reports its error together with the boundary
actions performed during its own execution (an inner WithTx contributes
actions). The deferred function commits when the named return txErr is nil
and rolls back otherwise; a rollback error is only logged, and the commit
result becomes the named return. -/
def withTx (o : TxOracle) (inTx : Bool)
    (f : Bool → Option GoError × List TxAction) : Option GoError × List TxAction :=
  match injectTx o inTx with
  | .error e => (some (.wrap "can not inject transaction" e), [])
  | .ok (ctxInTx, startActs) =>
    let r := f ctxInTx
    match r.1 with
    | some e =>
      (some (.wrap "function execution error" e), startActs ++ r.2 ++ [TxAction.rollback])
    | none =>
      (o.commitErr, startActs ++ r.2 ++ [TxAction.commit])

/-- Oracle in which every pgx call succeeds. -/
def okOracle : TxOracle := ⟨none, none, none⟩

/-- Count of commit or rollback actions in a trace. -/
def finishCount (acts : List TxAction) : Nat :=
  (acts.filter (fun a => a == TxAction.commit || a == TxAction.rollback)).length

/-- A body that performs no transaction-boundary actions of its own and
returns the given error. -/
def plainBody (e : Option GoError) : Bool → Option GoError × List TxAction :=
  fun _ => (e, [])

/-- Nested scenario: the outer body calls WithTx again on the derived
context, with an inner body returning the given error. -/
def nestedBody (o : TxOracle) (e : Option GoError) :
    Bool → Option GoError × List TxAction :=
  fun inTx => withTx o inTx (plainBody e)

/-- Embedding of entity.Author. -/
structure Author where
  id : String
  name : String
deriving DecidableEq, Repr

/-- Embedding of entity.Book; timestamps are abstracted to naturals. -/
structure Book where
  id : String
  name : String
  authorIDs : List String
  createdAt : Nat
  updatedAt : Nat
deriving DecidableEq, Repr

/-- Embedding of repository.OutboxKind (Undefined, Book, Author). -/
inductive OutboxKind where
  | undefined
  | book
  | author
deriving DecidableEq, Repr

/-- Integer value of the kind as declared by the iota block. -/
def OutboxKind.toInt : OutboxKind → Nat
  | .undefined => 0
  | .book => 1
  | .author => 2

/-- Embedding of the OutboxKind String method. -/
def OutboxKind.string : OutboxKind → String
  | .book => "book"
  | .author => "author"
  | .undefined => "undefined"

/-- Row of the outbox table as far as the claims need it: key, kind and
payload (the payload bytes are modelled as a string). -/
structure OutboxRow where
  idempotencyKey : String
  kind : OutboxKind
  payload : String
deriving DecidableEq, Repr

/-- Database state: the three domain tables, the outbox table, the id
sequence and the clock used for assigned ids and timestamps. -/
structure Db where
  authors : List Author
  books : List Book
  authorBook : List (String × String)
  outbox : List OutboxRow
  nextId : Nat
  now : Nat
deriving DecidableEq, Repr

/-- Embedding of postgresImpl.mapErr: a postgres error with the foreign key
violation code 23503 becomes the author-not-found sentinel; anything else
passes through. -/
def mapErr (err : GoError) : GoError :=
  if errAsPgCode err "23503" then GoError.errAuthorNotFound else err

/-- Embedding of libraryImpl.convertErr: author-not-found and
book-not-found map to a NotFound status error carrying the message,
everything else to Internal. -/
def convertErr (err : GoError) : GoError :=
  if errorsIs err .errAuthorNotFound then .statusErr .notFound err.message
  else if errorsIs err .errBookNotFound then .statusErr .notFound err.message
  else .statusErr .internal err.message

/-- Embedding of postgresImpl.AddBook on the ambient-transaction path the
use case always takes (extractTx succeeds inside WithTx, so the local
begin/commit branch of the source is not entered): the insert assigns the
next id and the current timestamps, then addBookAuthors copies the
author_book rows, which raises the foreign key violation 23503 — mapped by
mapErr — when a referenced author id does not exist. A transient failure of
the insert itself is modelled by the oracle argument. -/
def postgresAddBook (insertErr : Option GoError) (db : Db) (book : Book) :
    Except GoError (Book × Db) :=
  match insertErr with
  | some e => .error e
  | none =>
    let stored : Book :=
      { book with id := toString db.nextId, createdAt := db.now, updatedAt := db.now }
    let db1 : Db := { db with books := db.books ++ [stored], nextId := db.nextId + 1 }
    if stored.authorIDs.all (fun a => db.authors.any (fun au => au.id == a)) then
      .ok (stored,
        { db1 with authorBook :=
            db1.authorBook ++ stored.authorIDs.map (fun a => (a, stored.id)) })
    else
      .error (mapErr (GoError.pgError "23503" "violates foreign key constraint"))

/-- Embedding of postgresImpl.RegisterAuthor on the ambient-transaction
path: the insert assigns the next id. A transient failure of the insert is
modelled by the oracle argument. -/
def postgresRegisterAuthor (insertErr : Option GoError) (db : Db) (author : Author) :
    Except GoError (Author × Db) :=
  match insertErr with
  | some e => .error e
  | none =>
    let stored : Author := { author with id := toString db.nextId }
    .ok (stored, { db with authors := db.authors ++ [stored], nextId := db.nextId + 1 })

/-- Modelled from the spec: the postgres implementation of
OutboxRepository.SendMessage is not in the source snapshot (only the
interface, its callers, its mocks and the application wiring are), so the
enqueue is modelled from spec section 4.2 together with the design note of
section 9: the insert enlists in the ambient transaction, the idempotency
key is unique, and a duplicate key surfaces as the unique-constraint error,
failing the enclosing transaction. A transient failure is modelled by the
oracle argument. -/
def sendMessage (sendErr : Option GoError) (db : Db) (key : String)
    (kind : OutboxKind) (payload : String) : Except GoError Db :=
  match sendErr with
  | some e => .error e
  | none =>
    if db.outbox.any (fun r => r.idempotencyKey == key) then
      .error (GoError.pgError "23505" "duplicate key value violates unique constraint")
    else
      .ok { db with outbox := db.outbox ++ [⟨key, kind, payload⟩] }

/-- Embedding of transactorImpl.WithTx in its use-case view: the
transaction bound into the context is the working database state the
enlisted repository calls operate on; rollback discards the working state,
commit publishes it. The control flow is the one of withTx on a context
with no ambient transaction, with the body returning the value the Go
closure writes to its captured variable. -/
def withTxDb {α : Type} (o : TxOracle) (db : Db)
    (f : Db → Except GoError (α × Db)) : Except GoError α × Db :=
  match o.beginErr with
  | some e => (.error (.wrap "can not inject transaction" e), db)
  | none =>
    match f db with
    | .error e => (.error (.wrap "function execution error" e), db)
    | .ok (a, db2) =>
      match o.commitErr with
      | some ce => (.error ce, db)
      | none => (.ok a, db2)

/-- External outcomes one write use-case invocation depends on: the pgx
oracle of the enclosing WithTx, a transient failure of the domain insert,
the results of json.Marshal on the stored entities (the source checks the
marshal error), and a transient failure of the outbox enqueue. -/
structure WriteEnv where
  tx : TxOracle
  insertErr : Option GoError
  marshalBook : Book → Except GoError String
  marshalAuthor : Author → Except GoError String
  sendErr : Option GoError

/-- Request of the AddBook use case (name and author ids). -/
structure AddBookRequest where
  name : String
  authorIds : List String
deriving DecidableEq, Repr

/-- Request of the RegisterAuthor use case. -/
structure RegisterAuthorRequest where
  name : String
deriving DecidableEq, Repr

/-- Body of the WithTx closure of libraryImpl.AddBook: write the book via
the books repository, serialize the stored book, build the idempotency key
as the kind name, an underscore and the stored id, and enqueue the outbox
message; the first failing step aborts the body. -/
def addBookBody (env : WriteEnv) (req : AddBookRequest) (workDb : Db) :
    Except GoError (Book × Db) :=
  match postgresAddBook env.insertErr workDb
      { id := "", name := req.name, authorIDs := req.authorIds,
        createdAt := 0, updatedAt := 0 } with
  | .error e => .error e
  | .ok (book, db1) =>
    match env.marshalBook book with
    | .error e => .error e
    | .ok serialized =>
      match sendMessage env.sendErr db1 (OutboxKind.book.string ++ "_" ++ book.id)
          OutboxKind.book serialized with
      | .error e => .error e
      | .ok db2 => .ok (book, db2)

/-- Embedding of libraryImpl.AddBook: run the body inside WithTx and
convert a failure through convertErr. -/
def addBook (env : WriteEnv) (db : Db) (req : AddBookRequest) :
    Except GoError Book × Db :=
  match withTxDb env.tx db (addBookBody env req) with
  | (.error e, db2) => (.error (convertErr e), db2)
  | (.ok book, db2) => (.ok book, db2)

/-- Body of the WithTx closure of libraryImpl.RegisterAuthor: write the
author, serialize it, build the idempotency key and enqueue the outbox
message. -/
def registerAuthorBody (env : WriteEnv) (req : RegisterAuthorRequest) (workDb : Db) :
    Except GoError (Author × Db) :=
  match postgresRegisterAuthor env.insertErr workDb { id := "", name := req.name } with
  | .error e => .error e
  | .ok (author, db1) =>
    match env.marshalAuthor author with
    | .error e => .error e
    | .ok serialized =>
      match sendMessage env.sendErr db1
          (OutboxKind.author.string ++ "_" ++ author.id) OutboxKind.author serialized with
      | .error e => .error e
      | .ok db2 => .ok (author, db2)

/-- Embedding of libraryImpl.RegisterAuthor: run the body inside WithTx and
convert a failure through convertErr. -/
def registerAuthor (env : WriteEnv) (db : Db) (req : RegisterAuthorRequest) :
    Except GoError Author × Db :=
  match withTxDb env.tx db (registerAuthorBody env req) with
  | (.error e, db2) => (.error (convertErr e), db2)
  | (.ok author, db2) => (.ok author, db2)

/-- Concrete serializer used by the witnesses. -/
def cMarshalBook : Book → Except GoError String := fun b => .ok ("bookjson " ++ b.id)

/-- Concrete serializer used by the witnesses. -/
def cMarshalAuthor : Author → Except GoError String := fun a => .ok ("authorjson " ++ a.id)

/-- Environment in which every external call succeeds. -/
def cEnvOk : WriteEnv := ⟨okOracle, none, cMarshalBook, cMarshalAuthor, none⟩

/-- Environment in which the outbox enqueue fails. -/
def cEnvSendFail : WriteEnv :=
  ⟨okOracle, none, cMarshalBook, cMarshalAuthor, some (.str "outbox err")⟩

/-- Concrete database with one author and id sequence at 10. -/
def cDb : Db := ⟨[⟨"7", "Ann"⟩], [], [], [], 10, 5⟩

/-- Concrete AddBook request referencing the existing author. -/
def cBreq : AddBookRequest := ⟨"B", ["7"]⟩

/-- Concrete AddBook request referencing a missing author. -/
def cBreqBad : AddBookRequest := ⟨"B", ["9"]⟩

/-- Concrete RegisterAuthor request. -/
def cAreq : RegisterAuthorRequest := ⟨"Ann2"⟩

/-- Send attempts of the GetAuthorBooks response loop: every fetched book is
sent in order and the outcome of each Send is recorded (the source only
logs a failure and continues with the next book). -/
def sendLoop (send : Book → Option GoError) : List Book → List (Book × Option GoError)
  | [] => []
  | b :: rest => (b, send b) :: sendLoop send rest

/-- Embedding of libraryImpl.GetAuthorBooks: fetch the author books from
the repository, converting a lookup failure through convertErr; on success
send each book on the response stream — a Send failure is only logged — and
return nil after the loop. Returns the use-case error and the attempted
sends. -/
def getAuthorBooksUC (repoResult : Except GoError (List Book))
    (send : Book → Option GoError) :
    Option GoError × List (Book × Option GoError) :=
  match repoResult with
  | .error e => (some (convertErr e), [])
  | .ok books => (none, sendLoop send books)

/-- Aggregated row produced by the book queries: the LEFT JOIN with
array_agg yields the book columns and an author-id array whose elements may
be NULL; a book with no authors yields the single-element array holding
NULL. -/
structure BookRow where
  id : String
  name : String
  createdAt : Nat
  updatedAt : Nat
  authorAgg : List (Option String)
deriving DecidableEq, Repr

/-- Loop of getBookFromRows: keep exactly the non-nil elements of the
scanned author array, in order. -/
def collectAuthors : List (Option String) → List String
  | [] => []
  | some a :: rest => a :: collectAuthors rest
  | none :: rest => collectAuthors rest

/-- Embedding of postgresImpl.getBookFromRows: scan the columns (a scan
failure aborts), then build the book with the filtered author ids. -/
def getBookFromRows (scanErr : Option GoError) (row : BookRow) :
    Except GoError Book :=
  match scanErr with
  | some e => .error e
  | none =>
    .ok { id := row.id, name := row.name,
          authorIDs := collectAuthors row.authorAgg,
          createdAt := row.createdAt, updatedAt := row.updatedAt }

/-- Embedding of the row loop of postgresImpl.GetAuthorBooks (the same
scanning serves GetBookInfo on its single row): each fetched row is scanned
through getBookFromRows and appended; the first failure aborts the call. -/
def getAuthorBooksRows : List (Option GoError × BookRow) → Except GoError (List Book)
  | [] => .ok []
  | (scanErr, row) :: rest =>
    match getBookFromRows scanErr row with
    | .error e => .error e
    | .ok book =>
      match getAuthorBooksRows rest with
      | .error e => .error e
      | .ok books => .ok (book :: books)

/-- HTTP request issued through the shared client: url, content type and
body, as built by client.Post in SendID. -/
structure HttpRequest where
  url : String
  contentType : String
  body : String
deriving DecidableEq, Repr

/-- Model of the shared HTTP client: maps a request to the response status
code, or to a transport error. -/
def HttpClient : Type := HttpRequest → Except GoError Nat

/-- Embedding of SendID: POST the id as a text/plain body to the url; a
transport error is wrapped; a status of httpMinErrorStatus (400) or above
is an http error; any lower status succeeds. -/
def sendID (client : HttpClient) (url : String) (id : String) : Option GoError :=
  match client ⟨url, "text/plain", id⟩ with
  | .error e => some (.wrap "error while processing post request" e)
  | .ok status =>
    if 400 ≤ status then some (.str ("http error: " ++ toString status)) else none

/-- Embedding of bookOutboxHandler: deserialize the payload as a Book (the
json.Unmarshal step is the decoder argument), then SendID its id to the
configured url; a deserialization failure is wrapped and returned. -/
def bookOutboxHandler (decodeBook : String → Except GoError Book)
    (client : HttpClient) (url : String) : String → Option GoError :=
  fun data =>
    match decodeBook data with
    | .error e => some (.wrap "can not deserialize data in book outbox handler" e)
    | .ok book => sendID client url book.id

/-- Embedding of authorOutboxHandler, symmetric to the book handler. -/
def authorOutboxHandler (decodeAuthor : String → Except GoError Author)
    (client : HttpClient) (url : String) : String → Option GoError :=
  fun data =>
    match decodeAuthor data with
    | .error e => some (.wrap "can not deserialize data in author outbox handler" e)
    | .ok author => sendID client url author.id

/-- Embedding of globalOutboxHandler: resolve the book and author kinds to
their handlers; any other kind — in particular the reserved undefined
value — is a resolution error naming the kind number. -/
def globalOutboxHandler (decodeBook : String → Except GoError Book)
    (decodeAuthor : String → Except GoError Author) (client : HttpClient)
    (bookURL authorURL : String) :
    OutboxKind → Except GoError (String → Option GoError)
  | .book => .ok (bookOutboxHandler decodeBook client bookURL)
  | .author => .ok (authorOutboxHandler decodeAuthor client authorURL)
  | .undefined =>
    .error (.str ("unsupported outbox kind: " ++ toString OutboxKind.undefined.toInt))

/-- Embedding of repository.OutboxData (the leased record: key, kind, raw
payload bytes). -/
structure OutboxData where
  idempotencyKey : String
  kind : OutboxKind
  rawData : String
deriving DecidableEq, Repr

/-- Whether the dispatcher acknowledges a record in the current pass: its
kind resolves to a handler and the handler accepts the payload. -/
def recordAck (resolve : OutboxKind → Except GoError (String → Option GoError))
    (r : OutboxData) : Bool :=
  match resolve r.kind with
  | .error _ => false
  | .ok h => (h r.rawData).isNone

/-- Modelled from the spec: the dispatcher worker of internal/usecase/outbox
is not part of the source snapshot (only its test and the application wiring
are), so the per-batch dispatch step follows spec section 4.4: for each
leased record resolve its handler through the global handler, skip the
record when resolution fails, otherwise invoke the handler on the payload,
and collect the idempotency keys of the records whose handler succeeded;
the collected key set is what MarkAsProcessed receives for the pass. -/
def dispatchBatch (resolve : OutboxKind → Except GoError (String → Option GoError)) :
    List OutboxData → List String
  | [] => []
  | r :: rest =>
    match resolve r.kind with
    | .error _ => dispatchBatch resolve rest
    | .ok h =>
      match h r.rawData with
      | some _ => dispatchBatch resolve rest
      | none => r.idempotencyKey :: dispatchBatch resolve rest

/-- Concrete book decoder for the witnesses: accepts the payload literal. -/
def cDecodeBook : String → Except GoError Book :=
  fun s => if s == "payload" then .ok ⟨"42", "B", [], 0, 0⟩ else .error (.str "bad json")

/-- Concrete author decoder for the witnesses. -/
def cDecodeAuthor : String → Except GoError Author :=
  fun s => if s == "apayload" then .ok ⟨"7", "A"⟩ else .error (.str "bad json")

/-- Concrete client answering every request with status 200. -/
def cClient : HttpClient := fun _ => .ok 200

/-- Concrete batch mirroring the outbox test: one healthy book record, one
record with the reserved undefined kind, and one book record whose payload
does not deserialize, the last two sharing the key -1. -/
def cBatch : List OutboxData :=
  [⟨"0", .book, "payload"⟩, ⟨"-1", .undefined, "x"⟩, ⟨"-1", .book, ""⟩]

/-- Helper: errors.Is matches an error against itself. -/
theorem errorsIs_self (e : GoError) : errorsIs e e = true := by
  cases e <;> simp [errorsIs]

/-- C1: the claim says an inner WithTx on a context that already carries the
outer transaction is a no-op at its own boundary, so a top-level invocation
sees exactly one commit or rollback. The code reuses the transaction
(injectTx returns the ambient one, no second Begin) but the deferred
commit/rollback still runs at the inner boundary: with both bodies
succeeding, the trace of one top-level call is Begin, Commit, Commit — the
inner call commits the shared transaction and the finish count is 2, not 1. -/
theorem withTx_nested_inner_commits :
    withTx okOracle false (nestedBody okOracle none) =
      (none, [TxAction.beginTx, TxAction.commit, TxAction.commit]) ∧
    finishCount (withTx okOracle false (nestedBody okOracle none)).2 = 2 := by
  constructor <;> rfl

/-- C3: when the body fails, WithTx rolls back (no commit appears in the
trace) and returns an error derived from the body error by the single
fmt.Errorf wrap, regardless of the rollback outcome recorded in the oracle;
when the body succeeds, WithTx commits and returns exactly the commit
outcome, so a failed commit surfaces to the caller. -/
theorem withTx_error_semantics (o : TxOracle) (e : GoError)
    (hbegin : o.beginErr = none) :
    (withTx o false (plainBody (some e)) =
      (some (.wrap "function execution error" e),
        [TxAction.beginTx, TxAction.rollback])) ∧
    (withTx o false (plainBody none) =
      (o.commitErr, [TxAction.beginTx, TxAction.commit])) := by
  constructor <;> simp [withTx, injectTx, plainBody, hbegin]

/-- Witness for C3 at a concrete oracle whose commit and rollback both fail:
the body error is still the one returned (rollback failure does not mask
it) and on the success path the commit error surfaces. -/
theorem withTx_error_semantics_witness :
    (withTx ⟨none, some (GoError.str "cfail"), some (GoError.str "rbfail")⟩ false
        (plainBody (some (GoError.str "boom"))) =
      (some (GoError.wrap "function execution error" (GoError.str "boom")),
        [TxAction.beginTx, TxAction.rollback])) ∧
    (withTx ⟨none, some (GoError.str "cfail"), some (GoError.str "rbfail")⟩ false
        (plainBody none) =
      (some (GoError.str "cfail"), [TxAction.beginTx, TxAction.commit])) :=
  withTx_error_semantics ⟨none, some (.str "cfail"), some (.str "rbfail")⟩
    (.str "boom") rfl

/-- C8 counterexample: the claim says the body error propagates unwrapped.
At the concrete body error boom, WithTx returns the fmt.Errorf wrap with
message prefix function execution error, which is not the body error
value itself. -/
theorem withTx_body_error_is_wrapped :
    ¬ ((withTx okOracle false (plainBody (some (GoError.str "boom")))).1 =
        some (GoError.str "boom")) := by
  decide

/-- C8 amended: when the body fails, WithTx returns the body error wrapped
exactly once by fmt.Errorf with the w verb and message prefix function
execution error; errors.Is on the returned error still matches the body
error, but the returned value is the wrap, not the body error itself. -/
theorem withTx_body_error_wrapped_once (o : TxOracle) (e : GoError)
    (hbegin : o.beginErr = none) :
    (withTx o false (plainBody (some e))).1 =
      some (GoError.wrap "function execution error" e) ∧
    errorsIs (GoError.wrap "function execution error" e) e = true := by
  refine ⟨by simp [withTx, injectTx, plainBody, hbegin], ?_⟩
  simp [errorsIs, errorsIs_self]

/-- Witness for the amended C8 at a concrete oracle and body error. -/
theorem withTx_body_error_wrapped_once_witness :
    (withTx okOracle false (plainBody (some (GoError.str "boom")))).1 =
      some (GoError.wrap "function execution error" (GoError.str "boom")) ∧
    errorsIs (GoError.wrap "function execution error" (GoError.str "boom"))
      (GoError.str "boom") = true :=
  withTx_body_error_wrapped_once okOracle (.str "boom") rfl

/-- Helper: a failed withTxDb leaves the database unchanged (rollback, or a
failed begin or commit). -/
theorem withTxDb_error_eq {α : Type} (o : TxOracle) (db : Db)
    (f : Db → Except GoError (α × Db)) (e : GoError)
    (h : (withTxDb o db f).1 = .error e) : (withTxDb o db f).2 = db := by
  unfold withTxDb at h ⊢
  cases hb : o.beginErr with
  | some b => rfl
  | none =>
    simp only [hb] at h ⊢
    cases hf : f db with
    | error e2 => rfl
    | ok p =>
      simp only [hf] at h ⊢
      cases hc : o.commitErr with
      | some c => rfl
      | none => simp only [hc] at h; simp at h

/-- Helper: a successful withTxDb returns exactly the state and value the
body committed. -/
theorem withTxDb_ok_eq {α : Type} (o : TxOracle) (db : Db)
    (f : Db → Except GoError (α × Db)) (a : α)
    (h : (withTxDb o db f).1 = .ok a) : f db = .ok (a, (withTxDb o db f).2) := by
  unfold withTxDb at h ⊢
  cases hb : o.beginErr with
  | some b => simp only [hb] at h; simp at h
  | none =>
    simp only [hb] at h ⊢
    cases hf : f db with
    | error e2 => simp only [hf] at h; simp at h
    | ok p =>
      simp only [hf] at h ⊢
      cases hc : o.commitErr with
      | some c => simp only [hc] at h; simp at h
      | none =>
        simp only [hc] at h ⊢
        obtain rfl : p.1 = a := by simpa using h
        rfl

/-- Helper: a successful domain book insert appends the stored book to the
book table and leaves the outbox untouched. -/
theorem postgresAddBook_ok (insertErr : Option GoError) (workDb : Db) (b : Book)
    (book1 : Book) (db1 : Db)
    (h : postgresAddBook insertErr workDb b = .ok (book1, db1)) :
    book1 ∈ db1.books ∧ db1.outbox = workDb.outbox := by
  cases hins : insertErr with
  | some e => rw [hins] at h; simp [postgresAddBook] at h
  | none =>
    rw [hins] at h
    simp only [postgresAddBook] at h
    split at h
    · simp only [Except.ok.injEq, Prod.mk.injEq] at h
      obtain ⟨rfl, rfl⟩ := h
      exact ⟨by simp, rfl⟩
    · simp at h

/-- Helper: a successful domain author insert appends the stored author and
leaves the outbox untouched. -/
theorem postgresRegisterAuthor_ok (insertErr : Option GoError) (workDb : Db)
    (a : Author) (author1 : Author) (db1 : Db)
    (h : postgresRegisterAuthor insertErr workDb a = .ok (author1, db1)) :
    author1 ∈ db1.authors ∧ db1.outbox = workDb.outbox := by
  cases hins : insertErr with
  | some e => rw [hins] at h; simp [postgresRegisterAuthor] at h
  | none =>
    rw [hins] at h
    simp only [postgresRegisterAuthor] at h
    simp only [Except.ok.injEq, Prod.mk.injEq] at h
    obtain ⟨rfl, rfl⟩ := h
    exact ⟨by simp, rfl⟩

/-- Helper: a successful enqueue appends exactly the given outbox row and
changes nothing else. -/
theorem sendMessage_ok (sendErr : Option GoError) (db : Db) (key : String)
    (kind : OutboxKind) (payload : String) (db2 : Db)
    (h : sendMessage sendErr db key kind payload = .ok db2) :
    db2.outbox = db.outbox ++ [⟨key, kind, payload⟩] ∧
    db2.books = db.books ∧ db2.authors = db.authors := by
  cases hs : sendErr with
  | some e => rw [hs] at h; simp [sendMessage] at h
  | none =>
    rw [hs] at h
    simp only [sendMessage] at h
    split at h
    · simp at h
    · simp only [Except.ok.injEq] at h
      obtain rfl := h.symm
      exact ⟨rfl, rfl, rfl⟩

/-- Helper: a successful AddBook body stores the returned book and appends
exactly one outbox row, keyed by the kind name, an underscore and the
stored id, and carrying the serialized book. -/
theorem addBookBody_ok (env : WriteEnv) (req : AddBookRequest) (workDb : Db)
    (book : Book) (db2 : Db) (h : addBookBody env req workDb = .ok (book, db2)) :
    book ∈ db2.books ∧
    ∃ serialized, env.marshalBook book = .ok serialized ∧
      db2.outbox = workDb.outbox ++
        [⟨OutboxKind.book.string ++ "_" ++ book.id, OutboxKind.book, serialized⟩] := by
  unfold addBookBody at h
  split at h
  · simp at h
  · rename_i book1 db1 hpg
    obtain ⟨hbmem, hout1⟩ := postgresAddBook_ok _ _ _ _ _ hpg
    split at h
    · simp at h
    · rename_i serialized hm
      split at h
      · simp at h
      · rename_i db2x hsend
        obtain ⟨hout2, hbooks2, _⟩ := sendMessage_ok _ _ _ _ _ _ hsend
        simp only [Except.ok.injEq, Prod.mk.injEq] at h
        obtain ⟨rfl, rfl⟩ := h
        refine ⟨by rw [hbooks2]; exact hbmem, serialized, hm, ?_⟩
        rw [hout2, hout1]

/-- Helper: a successful RegisterAuthor body stores the returned author and
appends exactly one outbox row, keyed by the kind name, an underscore and
the stored id, and carrying the serialized author. -/
theorem registerAuthorBody_ok (env : WriteEnv) (req : RegisterAuthorRequest)
    (workDb : Db) (author : Author) (db2 : Db)
    (h : registerAuthorBody env req workDb = .ok (author, db2)) :
    author ∈ db2.authors ∧
    ∃ serialized, env.marshalAuthor author = .ok serialized ∧
      db2.outbox = workDb.outbox ++
        [⟨OutboxKind.author.string ++ "_" ++ author.id, OutboxKind.author, serialized⟩] := by
  unfold registerAuthorBody at h
  split at h
  · simp at h
  · rename_i author1 db1 hpg
    obtain ⟨hamem, hout1⟩ := postgresRegisterAuthor_ok _ _ _ _ _ hpg
    split at h
    · simp at h
    · rename_i serialized hm
      split at h
      · simp at h
      · rename_i db2x hsend
        obtain ⟨hout2, _, hauth2⟩ := sendMessage_ok _ _ _ _ _ _ hsend
        simp only [Except.ok.injEq, Prod.mk.injEq] at h
        obtain ⟨rfl, rfl⟩ := h
        refine ⟨by rw [hauth2]; exact hamem, serialized, hm, ?_⟩
        rw [hout2, hout1]

/-- Helper: AddBook is the converted projection of its WithTx run. -/
theorem addBook_eq (env : WriteEnv) (db : Db) (breq : AddBookRequest) :
    addBook env db breq =
      ((withTxDb env.tx db (addBookBody env breq)).1.mapError convertErr,
        (withTxDb env.tx db (addBookBody env breq)).2) := by
  unfold addBook
  rcases h : withTxDb env.tx db (addBookBody env breq) with ⟨r1, r2⟩
  cases r1 <;> simp [Except.mapError]

/-- Helper: RegisterAuthor is the converted projection of its WithTx run. -/
theorem registerAuthor_eq (env : WriteEnv) (db : Db) (areq : RegisterAuthorRequest) :
    registerAuthor env db areq =
      ((withTxDb env.tx db (registerAuthorBody env areq)).1.mapError convertErr,
        (withTxDb env.tx db (registerAuthorBody env areq)).2) := by
  unfold registerAuthor
  rcases h : withTxDb env.tx db (registerAuthorBody env areq) with ⟨r1, r2⟩
  cases r1 <;> simp [Except.mapError]

/-- Helper: the book idempotency key literal. -/
theorem book_key_eq (id : String) :
    OutboxKind.book.string ++ "_" ++ id = "book_" ++ id := rfl

/-- Helper: the author idempotency key literal. -/
theorem author_key_eq (id : String) :
    OutboxKind.author.string ++ "_" ++ id = "author_" ++ id := rfl

/-- C2: atomicity of the write use cases. If AddBook or RegisterAuthor
fails — for any reason inside the transaction: domain write, marshal or
outbox enqueue, or a failed begin or commit — the database is the one from
before the call, so neither the domain row nor the outbox row with the
corresponding idempotency key persists; on success the stored entity row
exists and an outbox row keyed by the kind name and the new entity id
exists in the committed state. -/
theorem write_usecases_atomic (env : WriteEnv) (db : Db)
    (breq : AddBookRequest) (areq : RegisterAuthorRequest) :
    (∀ e, (addBook env db breq).1 = .error e → (addBook env db breq).2 = db) ∧
    (∀ book, (addBook env db breq).1 = .ok book →
      book ∈ (addBook env db breq).2.books ∧
      ∃ row ∈ (addBook env db breq).2.outbox,
        row.idempotencyKey = "book_" ++ book.id) ∧
    (∀ e, (registerAuthor env db areq).1 = .error e →
      (registerAuthor env db areq).2 = db) ∧
    (∀ author, (registerAuthor env db areq).1 = .ok author →
      author ∈ (registerAuthor env db areq).2.authors ∧
      ∃ row ∈ (registerAuthor env db areq).2.outbox,
        row.idempotencyKey = "author_" ++ author.id) := by
  refine ⟨?_, ?_, ?_, ?_⟩
  · intro e he
    rw [addBook_eq] at he ⊢
    cases hb1 : (withTxDb env.tx db (addBookBody env breq)).1 with
    | error e0 => exact withTxDb_error_eq _ _ _ _ hb1
    | ok b => rw [hb1] at he; simp [Except.mapError] at he
  · intro book hbk
    rw [addBook_eq] at hbk ⊢
    cases hb1 : (withTxDb env.tx db (addBookBody env breq)).1 with
    | error e0 => rw [hb1] at hbk; simp [Except.mapError] at hbk
    | ok b =>
      rw [hb1] at hbk
      have hbb : b = book := by simpa [Except.mapError] using hbk
      rw [hbb] at hb1
      have hbody := withTxDb_ok_eq env.tx db (addBookBody env breq) book hb1
      obtain ⟨hmem, serialized, hm, hout⟩ := addBookBody_ok _ _ _ _ _ hbody
      refine ⟨hmem, ⟨OutboxKind.book.string ++ "_" ++ book.id,
        OutboxKind.book, serialized⟩, ?_, book_key_eq book.id⟩
      rw [hout]; simp
  · intro e he
    rw [registerAuthor_eq] at he ⊢
    cases hb1 : (withTxDb env.tx db (registerAuthorBody env areq)).1 with
    | error e0 => exact withTxDb_error_eq _ _ _ _ hb1
    | ok a => rw [hb1] at he; simp [Except.mapError] at he
  · intro author hak
    rw [registerAuthor_eq] at hak ⊢
    cases hb1 : (withTxDb env.tx db (registerAuthorBody env areq)).1 with
    | error e0 => rw [hb1] at hak; simp [Except.mapError] at hak
    | ok a =>
      rw [hb1] at hak
      have haa : a = author := by simpa [Except.mapError] using hak
      rw [haa] at hb1
      have hbody := withTxDb_ok_eq env.tx db (registerAuthorBody env areq) author hb1
      obtain ⟨hmem, serialized, hm, hout⟩ := registerAuthorBody_ok _ _ _ _ _ hbody
      refine ⟨hmem, ⟨OutboxKind.author.string ++ "_" ++ author.id,
        OutboxKind.author, serialized⟩, ?_, author_key_eq author.id⟩
      rw [hout]; simp

/-- Witness for C2: with a failing outbox enqueue neither write use case
changes the database; with every step succeeding, the stored book and
author and their outbox rows are in the committed state. -/
theorem write_usecases_atomic_witness :
    (addBook cEnvSendFail cDb cBreq).2 = cDb ∧
    (⟨"10", "B", ["7"], 5, 5⟩ : Book) ∈ (addBook cEnvOk cDb cBreq).2.books ∧
    (∃ row ∈ (addBook cEnvOk cDb cBreq).2.outbox,
      row.idempotencyKey = "book_" ++ (⟨"10", "B", ["7"], 5, 5⟩ : Book).id) ∧
    (registerAuthor cEnvSendFail cDb cAreq).2 = cDb ∧
    (⟨"10", "Ann2"⟩ : Author) ∈ (registerAuthor cEnvOk cDb cAreq).2.authors ∧
    (∃ row ∈ (registerAuthor cEnvOk cDb cAreq).2.outbox,
      row.idempotencyKey = "author_" ++ (⟨"10", "Ann2"⟩ : Author).id) := by
  have h1 := write_usecases_atomic cEnvSendFail cDb cBreq cAreq
  have h2 := write_usecases_atomic cEnvOk cDb cBreq cAreq
  exact ⟨h1.1 (.statusErr .internal "function execution error: outbox err") rfl,
    (h2.2.1 ⟨"10", "B", ["7"], 5, 5⟩ rfl).1,
    (h2.2.1 ⟨"10", "B", ["7"], 5, 5⟩ rfl).2,
    h1.2.2.1 (.statusErr .internal "function execution error: outbox err") rfl,
    (h2.2.2.2 ⟨"10", "Ann2"⟩ rfl).1,
    (h2.2.2.2 ⟨"10", "Ann2"⟩ rfl).2⟩

/-- C5: on every successful AddBook (RegisterAuthor), the single outbox row
appended by the committed transaction — the same transaction that stored
the entity — has idempotency key equal to the kind name, an underscore and
the newly assigned entity id, and payload equal to the serialization of the
stored entity; the key is the stated function of the entity id. -/
theorem outbox_message_shape (env : WriteEnv) (db : Db)
    (breq : AddBookRequest) (areq : RegisterAuthorRequest) :
    (∀ book, (addBook env db breq).1 = .ok book →
      ∃ serialized, env.marshalBook book = .ok serialized ∧
        (addBook env db breq).2.outbox =
          db.outbox ++ [⟨"book_" ++ book.id, OutboxKind.book, serialized⟩]) ∧
    (∀ author, (registerAuthor env db areq).1 = .ok author →
      ∃ serialized, env.marshalAuthor author = .ok serialized ∧
        (registerAuthor env db areq).2.outbox =
          db.outbox ++ [⟨"author_" ++ author.id, OutboxKind.author, serialized⟩]) := by
  constructor
  · intro book hbk
    rw [addBook_eq] at hbk ⊢
    cases hb1 : (withTxDb env.tx db (addBookBody env breq)).1 with
    | error e0 => rw [hb1] at hbk; simp [Except.mapError] at hbk
    | ok b =>
      rw [hb1] at hbk
      have hbb : b = book := by simpa [Except.mapError] using hbk
      rw [hbb] at hb1
      have hbody := withTxDb_ok_eq env.tx db (addBookBody env breq) book hb1
      obtain ⟨_, serialized, hm, hout⟩ := addBookBody_ok _ _ _ _ _ hbody
      exact ⟨serialized, hm, by rw [hout, book_key_eq]⟩
  · intro author hak
    rw [registerAuthor_eq] at hak ⊢
    cases hb1 : (withTxDb env.tx db (registerAuthorBody env areq)).1 with
    | error e0 => rw [hb1] at hak; simp [Except.mapError] at hak
    | ok a =>
      rw [hb1] at hak
      have haa : a = author := by simpa [Except.mapError] using hak
      rw [haa] at hb1
      have hbody := withTxDb_ok_eq env.tx db (registerAuthorBody env areq) author hb1
      obtain ⟨_, serialized, hm, hout⟩ := registerAuthorBody_ok _ _ _ _ _ hbody
      exact ⟨serialized, hm, by rw [hout, author_key_eq]⟩

/-- Witness for C5 at the concrete environment and database: the committed
outbox rows carry the keys book_10 and author_10 and the serialized
entities. -/
theorem outbox_message_shape_witness :
    (∃ serialized, cEnvOk.marshalBook ⟨"10", "B", ["7"], 5, 5⟩ = .ok serialized ∧
      (addBook cEnvOk cDb cBreq).2.outbox =
        cDb.outbox ++ [⟨"book_" ++ (⟨"10", "B", ["7"], 5, 5⟩ : Book).id,
          OutboxKind.book, serialized⟩]) ∧
    (∃ serialized, cEnvOk.marshalAuthor ⟨"10", "Ann2"⟩ = .ok serialized ∧
      (registerAuthor cEnvOk cDb cAreq).2.outbox =
        cDb.outbox ++ [⟨"author_" ++ (⟨"10", "Ann2"⟩ : Author).id,
          OutboxKind.author, serialized⟩]) :=
  ⟨(outbox_message_shape cEnvOk cDb cBreq cAreq).1 ⟨"10", "B", ["7"], 5, 5⟩ rfl,
    (outbox_message_shape cEnvOk cDb cBreq cAreq).2 ⟨"10", "Ann2"⟩ rfl⟩

/-- C7: when AddBook references an author id that no author row has, the
copy into author_book raises the postgres foreign key violation 23503;
mapErr turns it into the author-not-found sentinel, the WithTx boundary
wraps it, and convertErr surfaces a NotFound status error from the use
case, which the controller returns to the RPC caller unchanged. -/
theorem addBook_fk_violation_not_found (env : WriteEnv) (db : Db)
    (breq : AddBookRequest)
    (hbegin : env.tx.beginErr = none) (hinsert : env.insertErr = none)
    (hfk : (breq.authorIds.all fun a => db.authors.any fun au => au.id == a) = false) :
    mapErr (GoError.pgError "23503" "violates foreign key constraint") =
      GoError.errAuthorNotFound ∧
    (addBook env db breq).1 =
      .error (GoError.statusErr .notFound "function execution error: author not found") := by
  refine ⟨by decide, ?_⟩
  have hbody : addBookBody env breq db = .error GoError.errAuthorNotFound := by
    simp only [addBookBody, postgresAddBook, hinsert]
    rw [hfk]
    simp [mapErr, errAsPgCode]
  have hw : (withTxDb env.tx db (addBookBody env breq)).1 =
      .error (.wrap "function execution error" GoError.errAuthorNotFound) := by
    simp only [withTxDb, hbegin, hbody]
  rw [addBook_eq]
  show Except.mapError convertErr (withTxDb env.tx db (addBookBody env breq)).1 = _
  rw [hw]
  rfl

/-- Witness for C7 at the concrete database whose only author id is 7 and a
request referencing author id 9. -/
theorem addBook_fk_violation_not_found_witness :
    mapErr (GoError.pgError "23503" "violates foreign key constraint") =
      GoError.errAuthorNotFound ∧
    (addBook cEnvOk cDb cBreqBad).1 =
      .error (GoError.statusErr .notFound "function execution error: author not found") :=
  addBook_fk_violation_not_found cEnvOk cDb cBreqBad rfl rfl rfl

/-- Helper: the send loop attempts every fetched book, in order. -/
theorem sendLoop_map_fst (send : Book → Option GoError) (books : List Book) :
    (sendLoop send books).map Prod.fst = books := by
  induction books with
  | nil => rfl
  | cons b rest ih => simp [sendLoop, ih]

/-- C9: the GetAuthorBooks use case returns nil whenever the repository
lookup succeeds — the send loop attempts every book and a Send failure is
only logged, never surfaced — while a repository failure is converted and
returned. -/
theorem getAuthorBooks_ignores_send_errors (books : List Book)
    (send : Book → Option GoError) :
    (getAuthorBooksUC (.ok books) send).1 = none ∧
    (getAuthorBooksUC (.ok books) send).2.map Prod.fst = books ∧
    (∀ e, (getAuthorBooksUC (.error e) send).1 = some (convertErr e)) :=
  ⟨rfl, sendLoop_map_fst send books, fun _ => rfl⟩

/-- Witness for C9: with a stream whose every Send fails, the use case
still returns nil and attempts both books. -/
theorem getAuthorBooks_ignores_send_errors_witness :
    (getAuthorBooksUC (.ok [⟨"1", "B1", [], 0, 0⟩, ⟨"2", "B2", [], 0, 0⟩])
        (fun _ => some (.str "send failed"))).1 = none ∧
    (getAuthorBooksUC (.ok [⟨"1", "B1", [], 0, 0⟩, ⟨"2", "B2", [], 0, 0⟩])
        (fun _ => some (.str "send failed"))).2.map Prod.fst =
      [⟨"1", "B1", [], 0, 0⟩, ⟨"2", "B2", [], 0, 0⟩] ∧
    (getAuthorBooksUC (.error GoError.errAuthorNotFound)
        (fun _ => some (.str "send failed"))).1 =
      some (convertErr GoError.errAuthorNotFound) := by
  have h := getAuthorBooks_ignores_send_errors
    [⟨"1", "B1", [], 0, 0⟩, ⟨"2", "B2", [], 0, 0⟩] (fun _ => some (.str "send failed"))
  exact ⟨h.1, h.2.1, h.2.2 GoError.errAuthorNotFound⟩

/-- Helper: the scanning loop is the NULL filter on the aggregated array. -/
theorem collectAuthors_eq_filterMap (l : List (Option String)) :
    collectAuthors l = l.filterMap id := by
  induction l with
  | nil => rfl
  | cons a rest ih => cases a <;> simp [collectAuthors, ih]

/-- C10: a book built by the row scanner has exactly the non-NULL elements
of the aggregated author-id array as its author ids — so the single NULL
produced by the LEFT JOIN for a book with no authors yields an empty list —
and every book returned by the row loop of GetAuthorBooks (and by
GetBookInfo, which scans one such row) is built that way from its row. -/
theorem scanned_books_filter_null_authors :
    (∀ (row : BookRow) (book : Book), getBookFromRows none row = .ok book →
      book.authorIDs = row.authorAgg.filterMap id ∧
      (row.authorAgg = [none] → book.authorIDs = [])) ∧
    (∀ rows books, getAuthorBooksRows rows = .ok books →
      ∀ book ∈ books, ∃ pr ∈ rows, book.authorIDs = pr.2.authorAgg.filterMap id) := by
  constructor
  · intro row book h
    simp only [getBookFromRows, Except.ok.injEq] at h
    subst h
    refine ⟨collectAuthors_eq_filterMap row.authorAgg, fun hagg => ?_⟩
    simp [hagg, collectAuthors]
  · intro rows
    induction rows with
    | nil =>
      intro books h book hb
      simp only [getAuthorBooksRows, Except.ok.injEq] at h
      subst h
      simp at hb
    | cons pr rest ih =>
      intro books h book hb
      obtain ⟨scanErr, row⟩ := pr
      unfold getAuthorBooksRows at h
      cases hscan : scanErr with
      | some e => rw [hscan] at h; simp [getBookFromRows] at h
      | none =>
        rw [hscan] at h
        simp only [getBookFromRows] at h
        cases hr : getAuthorBooksRows rest with
        | error e => rw [hr] at h; simp at h
        | ok books2 =>
          rw [hr] at h
          simp only [Except.ok.injEq] at h
          subst h
          rcases List.mem_cons.mp hb with hb1 | hb2
          · subst hb1
            exact ⟨(none, row), by simp, collectAuthors_eq_filterMap row.authorAgg⟩
          · obtain ⟨pr2, hpr2, heq⟩ := ih books2 hr book hb2
            exact ⟨pr2, List.mem_cons_of_mem _ hpr2, heq⟩

/-- Witness for C10: a row whose aggregate is the single NULL yields the
book with no author ids, and the concrete two-row loop returns books whose
author ids are the filtered aggregates. -/
theorem scanned_books_filter_null_authors_witness :
    ((⟨"1", "B", [], 0, 0⟩ : Book).authorIDs =
        (⟨"1", "B", 0, 0, [none]⟩ : BookRow).authorAgg.filterMap id ∧
      ((⟨"1", "B", 0, 0, [none]⟩ : BookRow).authorAgg = [none] →
        (⟨"1", "B", [], 0, 0⟩ : Book).authorIDs = [])) ∧
    (∃ pr ∈ [((none : Option GoError), (⟨"2", "C", 1, 1, [some "7", none]⟩ : BookRow))],
      (⟨"2", "C", ["7"], 1, 1⟩ : Book).authorIDs = pr.2.authorAgg.filterMap id) :=
  ⟨scanned_books_filter_null_authors.1 ⟨"1", "B", 0, 0, [none]⟩ ⟨"1", "B", [], 0, 0⟩ rfl,
    scanned_books_filter_null_authors.2
      [((none : Option GoError), ⟨"2", "C", 1, 1, [some "7", none]⟩)]
      [⟨"2", "C", ["7"], 1, 1⟩] rfl ⟨"2", "C", ["7"], 1, 1⟩ (by simp)⟩

/-- Helper: the acknowledged keys of a pass are the keys of the records
whose kind resolves and whose handler succeeds. -/
theorem dispatchBatch_eq_filter
    (resolve : OutboxKind → Except GoError (String → Option GoError))
    (batch : List OutboxData) :
    dispatchBatch resolve batch =
      (batch.filter (recordAck resolve)).map OutboxData.idempotencyKey := by
  induction batch with
  | nil => rfl
  | cons r rest ih =>
    unfold dispatchBatch
    cases hr : resolve r.kind with
    | error e => simp [List.filter_cons, recordAck, hr, ih]
    | ok h =>
      cases hh : h r.rawData <;>
        simp [List.filter_cons, recordAck, hr, hh, ih]

/-- C6: the book handler succeeds exactly when the payload deserializes to
a book, the POST of the book id as a text/plain body to the configured url
completes without transport error, and the status is strictly below 400;
every decode failure, transport error or status of 400 and above is a
handler failure. The author handler is symmetric with the author id and
the author url. -/
theorem handlers_status_semantics (decodeBook : String → Except GoError Book)
    (decodeAuthor : String → Except GoError Author) (client : HttpClient)
    (bookURL authorURL bpayload apayload : String) :
    (bookOutboxHandler decodeBook client bookURL bpayload = none ↔
      ∃ book s, decodeBook bpayload = .ok book ∧
        client ⟨bookURL, "text/plain", book.id⟩ = .ok s ∧ s < 400) ∧
    (authorOutboxHandler decodeAuthor client authorURL apayload = none ↔
      ∃ author s, decodeAuthor apayload = .ok author ∧
        client ⟨authorURL, "text/plain", author.id⟩ = .ok s ∧ s < 400) := by
  constructor
  · simp only [bookOutboxHandler]
    cases hd : decodeBook bpayload with
    | error e => simp
    | ok book =>
      have hrhs : (∃ b s, (Except.ok book : Except GoError Book) = .ok b ∧
          client ⟨bookURL, "text/plain", b.id⟩ = .ok s ∧ s < 400) ↔
          ∃ s, client ⟨bookURL, "text/plain", book.id⟩ = .ok s ∧ s < 400 := by
        simp
      rw [hrhs]
      unfold sendID
      cases hc : client ⟨bookURL, "text/plain", book.id⟩ with
      | error e => simp [hc]
      | ok s => by_cases hs : 400 ≤ s <;> simp [hc, hs] <;> omega
  · simp only [authorOutboxHandler]
    cases hd : decodeAuthor apayload with
    | error e => simp
    | ok author =>
      have hrhs : (∃ a s, (Except.ok author : Except GoError Author) = .ok a ∧
          client ⟨authorURL, "text/plain", a.id⟩ = .ok s ∧ s < 400) ↔
          ∃ s, client ⟨authorURL, "text/plain", author.id⟩ = .ok s ∧ s < 400 := by
        simp
      rw [hrhs]
      unfold sendID
      cases hc : client ⟨authorURL, "text/plain", author.id⟩ with
      | error e => simp [hc]
      | ok s => by_cases hs : 400 ≤ s <;> simp [hc, hs] <;> omega

/-- Witness for C6 at the concrete decoders, the 200-status client and the
concrete payloads. -/
theorem handlers_status_semantics_witness :
    (bookOutboxHandler cDecodeBook cClient "bu" "payload" = none ↔
      ∃ book s, cDecodeBook "payload" = .ok book ∧
        cClient ⟨"bu", "text/plain", book.id⟩ = .ok s ∧ s < 400) ∧
    (authorOutboxHandler cDecodeAuthor cClient "au" "apayload" = none ↔
      ∃ author s, cDecodeAuthor "apayload" = .ok author ∧
        cClient ⟨"au", "text/plain", author.id⟩ = .ok s ∧ s < 400) :=
  handlers_status_semantics cDecodeBook cDecodeAuthor cClient "bu" "au" "payload" "apayload"

/-- C4: handler resolution through the global handler fails for the
reserved undefined kind, and in a dispatch pass a record whose key is
carried only by records that fail resolution or whose handler fails is
never in the key set given to MarkAsProcessed, while a record of the same
batch whose kind resolves and whose handler succeeds is acknowledged. -/
theorem undefined_kind_never_acknowledged
    (decodeBook : String → Except GoError Book)
    (decodeAuthor : String → Except GoError Author) (client : HttpClient)
    (bookURL authorURL : String) (batch : List OutboxData) (r s : OutboxData)
    (hdl : String → Option GoError)
    (hr : r ∈ batch) (hrkind : r.kind = OutboxKind.undefined)
    (halias : (batch.all fun t =>
      !(t.idempotencyKey == r.idempotencyKey) ||
        !(recordAck (globalOutboxHandler decodeBook decodeAuthor client bookURL authorURL)
            t)) = true)
    (hs : s ∈ batch)
    (hres : globalOutboxHandler decodeBook decodeAuthor client bookURL authorURL s.kind =
      .ok hdl)
    (hok : hdl s.rawData = none) :
    (∃ e, globalOutboxHandler decodeBook decodeAuthor client bookURL authorURL r.kind =
      .error e) ∧
    r.idempotencyKey ∉
      dispatchBatch (globalOutboxHandler decodeBook decodeAuthor client bookURL authorURL)
        batch ∧
    s.idempotencyKey ∈
      dispatchBatch (globalOutboxHandler decodeBook decodeAuthor client bookURL authorURL)
        batch := by
  refine ⟨?_, ?_, ?_⟩
  · rw [hrkind]
    exact ⟨_, rfl⟩
  · rw [dispatchBatch_eq_filter]
    intro hmem
    simp only [List.mem_map, List.mem_filter] at hmem
    obtain ⟨t, ⟨htb, hack⟩, hkey⟩ := hmem
    have hall := List.all_eq_true.mp halias t htb
    simp [hack, hkey] at hall
  · rw [dispatchBatch_eq_filter]
    refine List.mem_map.mpr ⟨s, List.mem_filter.mpr ⟨hs, ?_⟩, rfl⟩
    simp [recordAck, hres, hok]

/-- Witness for C4 at the concrete batch of the outbox test: the healthy
record with key 0 is acknowledged; the record with the undefined kind —
whose key -1 is shared only with a record whose payload does not decode —
is not, and its resolution fails. -/
theorem undefined_kind_never_acknowledged_witness :
    (∃ e, globalOutboxHandler cDecodeBook cDecodeAuthor cClient "bu" "au"
        OutboxKind.undefined = .error e) ∧
    "-1" ∉ dispatchBatch
        (globalOutboxHandler cDecodeBook cDecodeAuthor cClient "bu" "au") cBatch ∧
    "0" ∈ dispatchBatch
        (globalOutboxHandler cDecodeBook cDecodeAuthor cClient "bu" "au") cBatch :=
  undefined_kind_never_acknowledged cDecodeBook cDecodeAuthor cClient "bu" "au" cBatch
    ⟨"-1", .undefined, "x"⟩ ⟨"0", .book, "payload"⟩
    (bookOutboxHandler cDecodeBook cClient "bu")
    (by simp [cBatch]) rfl rfl (by simp [cBatch]) rfl rfl
